import Mathlib

/-!
A shallow embedding of the clock-domain-crossing library `nmigen/lib/cdc.py`
(FFSynchronizer, AsyncFFSynchronizer, ResetSynchronizer, PulseSynchronizer),
together with proofs about the structures its elaboration produces and the
synchronous/asynchronous step semantics of those structures.

Constructors are modelled as functions returning `Except CdcError Config`,
mirroring the Python `__init__` validation; `elaborate` is modelled as a
function from a platform descriptor to the generated fragment (a list of
domain declarations, register declarations, and assignment statements).
The run-time behaviour of the generated register chains is modelled by
explicit step functions on register states, driven by event traces.
-/

namespace Cdc

/-- Python exception classes raised by the cdc library: `TypeError`
(the spec's InvalidType), `ValueError` (UnsafeValue), and
`NotImplementedError` (UnsupportedConstraint). -/
inductive CdcError
  | typeError
  | valueError
  | notImplementedError
  deriving DecidableEq, Repr

/-- A signal expression as it appears in generated statements: a named
caller-level signal, an internal chain stage, a domain clock or reset
signal, a constant, a negation, or an exclusive-or. -/
inductive Sig
  | sig (name : String)
  | stage (k : Nat)
  | clk (domain : String)
  | rst (domain : String)
  | const (n : Nat)
  | inv (s : Sig)
  | xorSig (a b : Sig)
  deriving DecidableEq, Repr

/-- An assignment statement of the generated fragment: combinational
(`m.d.comb += lhs.eq(rhs)`) or registered in a named clock domain
(`m.d[domain] += lhs.eq(rhs)`). -/
inductive Stmt
  | comb (lhs rhs : Sig)
  | driven (domain : String) (lhs rhs : Sig)
  deriving DecidableEq, Repr

/-- A clock-domain declaration (`ClockDomain(name, async_reset=..., local=...)`). -/
structure DomainDecl where
  name : String
  async_reset : Bool
  is_local : Bool
  deriving DecidableEq, Repr

/-- A register (Signal) declaration created by a synchronizer:
`Signal(width, name=..., reset=..., reset_less=...)`. -/
structure FlopDecl where
  name : String
  width : Nat
  reset : Nat
  reset_less : Bool
  deriving DecidableEq, Repr

/-- The structural output of a default elaboration: domain declarations,
registers, and assignment statements. -/
structure Fragment where
  domains : List DomainDecl
  flops : List FlopDecl
  stmts : List Stmt
  deriving DecidableEq, Repr

/-- The stage-count argument as a Python caller supplies it: either an
`int` or a value of some other type (`isinstance(stages, int)` fails). -/
inductive StagesArg
  | int (n : Int)
  | nonInt
  deriving DecidableEq, Repr

/-- `_check_stages` from cdc.py: `TypeError` when the value is not an
`int` or is below 1, then `ValueError` when it is below 2. -/
def check_stages : StagesArg → Except CdcError Unit
  | .nonInt => .error .typeError
  | .int n =>
    if n < 1 then .error .typeError
    else if n < 2 then .error .valueError
    else .ok ()

/-- The `async_edge` parameter after validation. -/
inductive Edge
  | pos
  | neg
  deriving DecidableEq, Repr

/-- Validated configuration of an `FFSynchronizer` instance. `width`
records `i.shape()`. -/
structure FFSync where
  i : Sig
  o : Sig
  width : Nat
  o_domain : String
  reset : Nat
  reset_less : Bool
  stages : Nat
  max_input_delay : Option Rat
  deriving DecidableEq, Repr

/-- `FFSynchronizer.__init__`: runs `_check_stages`, then records the
configuration. -/
def FFSynchronizer (i o : Sig) (width : Nat) (o_domain : String) (reset : Nat)
    (reset_less : Bool) (stages : StagesArg) (max_input_delay : Option Rat) :
    Except CdcError FFSync :=
  match check_stages stages with
  | .error e => .error e
  | .ok _ =>
    match stages with
    | .nonInt => .error .typeError
    | .int n =>
      .ok { i, o, width, o_domain, reset, reset_less, stages := n.toNat, max_input_delay }

/-- Validated configuration of an `AsyncFFSynchronizer` instance. -/
structure AsyncFFSync where
  i : Sig
  o : Sig
  domain : String
  stages : Nat
  edge : Edge
  max_input_delay : Option Rat
  deriving DecidableEq, Repr

/-- `AsyncFFSynchronizer.__init__`: runs `_check_stages`, then validates
`async_edge` against "pos"/"neg" (`ValueError` otherwise). -/
def AsyncFFSynchronizer (i o : Sig) (domain : String) (stages : StagesArg)
    (async_edge : String) (max_input_delay : Option Rat) :
    Except CdcError AsyncFFSync :=
  match check_stages stages with
  | .error e => .error e
  | .ok _ =>
    match stages with
    | .nonInt => .error .typeError
    | .int n =>
      if async_edge = "pos" then
        .ok { i, o, domain, stages := n.toNat, edge := Edge.pos, max_input_delay }
      else if async_edge = "neg" then
        .ok { i, o, domain, stages := n.toNat, edge := Edge.neg, max_input_delay }
      else .error .valueError

/-- Validated configuration of a `ResetSynchronizer` instance. -/
structure ResetSync where
  arst : Sig
  domain : String
  stages : Nat
  max_input_delay : Option Rat
  deriving DecidableEq, Repr

/-- `ResetSynchronizer.__init__`: runs `_check_stages`, then records the
configuration. -/
def ResetSynchronizer (arst : Sig) (domain : String) (stages : StagesArg)
    (max_input_delay : Option Rat) : Except CdcError ResetSync :=
  match check_stages stages with
  | .error e => .error e
  | .ok _ =>
    match stages with
    | .nonInt => .error .typeError
    | .int n => .ok { arst, domain, stages := n.toNat, max_input_delay }

/-- Validated configuration of a `PulseSynchronizer` instance. -/
structure PulseSync where
  i_domain : String
  o_domain : String
  sync_stages : Nat
  deriving DecidableEq, Repr

/-- `PulseSynchronizer.__init__`: raises `TypeError` when `sync_stages`
is not an `int` or is below 1; it does NOT call `_check_stages`, so it
never raises `ValueError` and accepts `sync_stages = 1`. -/
def PulseSynchronizer (i_domain o_domain : String) (sync_stages : StagesArg) :
    Except CdcError PulseSync :=
  match sync_stages with
  | .nonInt => .error .typeError
  | .int n =>
    if n < 1 then .error .typeError
    else .ok { i_domain, o_domain, sync_stages := n.toNat }

/-- Platform descriptor: which override hooks a `hasattr` lookup finds on
the elaboration platform. -/
structure Platform where
  has_get_ff_sync : Bool
  has_get_async_ff_sync : Bool
  deriving DecidableEq, Repr

/-- Result of a successful elaboration: either the platform hook's result
applied to the generator itself (so every parameter is delegated through
the configuration record), or the default fragment. -/
inductive ElabOut
  | overriddenFF (s : FFSync)
  | overriddenAsync (s : AsyncFFSync)
  | frag (f : Fragment)
  deriving DecidableEq, Repr

/-- The chain statements `for i, o in zip((src0, *flops), flops):
m.d[d] += o.eq(i)`. -/
def chainStmts (d : String) (src0 : Sig) (stages : Nat) : List Stmt :=
  ((src0 :: (List.range stages).map Sig.stage).zip
      ((List.range stages).map Sig.stage)).map
    (fun q => Stmt.driven d q.2 q.1)

/-- The register declarations `[Signal(width, name=..., reset=...,
reset_less=...) for index in range(stages)]`. -/
def ffFlops (width reset : Nat) (reset_less : Bool) (stages : Nat) :
    List FlopDecl :=
  (List.range stages).map (fun k =>
    { name := "stage" ++ toString k, width, reset, reset_less })

/-- The default fragment built by `FFSynchronizer.elaborate`: no domain
declaration, `stages` registers shaped like the input, the chain driven in
`o_domain`, and the output combinationally equal to the final stage. -/
def ffFragment (s : FFSync) : Fragment :=
  { domains := []
  , flops := ffFlops s.width s.reset s.reset_less s.stages
  , stmts := chainStmts s.o_domain s.i s.stages
      ++ [Stmt.comb s.o (Sig.stage (s.stages - 1))] }

/-- `FFSynchronizer.elaborate`: the hook check comes first, then the
max-input-delay support check, then the default structure. -/
def FFSync.elaborate (s : FFSync) (p : Platform) : Except CdcError ElabOut :=
  if p.has_get_ff_sync then Except.ok (ElabOut.overriddenFF s)
  else if s.max_input_delay.isSome then Except.error CdcError.notImplementedError
  else Except.ok (ElabOut.frag (ffFragment s))

/-- The expression driven onto the private async domain's reset signal:
`self.i` for the "pos" edge, `~self.i` for the "neg" edge. -/
def asyncResetExpr (s : AsyncFFSync) : Sig :=
  match s.edge with
  | .pos => s.i
  | .neg => Sig.inv s.i

/-- The default fragment built by `AsyncFFSynchronizer.elaborate`: a
private local domain "async_ff" with asynchronous reset, `stages`
single-bit registers initialized to 1, the chain fed 0, the domain's
reset combinationally driven from the (possibly inverted) input, the
domain's clock tied to the destination domain's clock, and the output
combinationally equal to the final stage. -/
def asyncFragment (s : AsyncFFSync) : Fragment :=
  { domains := [{ name := "async_ff", async_reset := true, is_local := true }]
  , flops := ffFlops 1 1 false s.stages
  , stmts := chainStmts "async_ff" (Sig.const 0) s.stages
      ++ [Stmt.comb (Sig.rst "async_ff") (asyncResetExpr s)]
      ++ [Stmt.comb (Sig.clk "async_ff") (Sig.clk s.domain),
          Stmt.comb s.o (Sig.stage (s.stages - 1))] }

/-- `AsyncFFSynchronizer.elaborate`: the hook check comes first, then the
max-input-delay support check, then the default structure. -/
def AsyncFFSync.elaborate (s : AsyncFFSync) (p : Platform) :
    Except CdcError ElabOut :=
  if p.has_get_async_ff_sync then Except.ok (ElabOut.overriddenAsync s)
  else if s.max_input_delay.isSome then Except.error CdcError.notImplementedError
  else Except.ok (ElabOut.frag (asyncFragment s))

/-- `ResetSynchronizer.elaborate`: returns an AsyncFFSynchronizer whose
input is `arst`, whose output is `ResetSignal(domain)`, with the same
domain name, stage count and max-input-delay constraint (edge polarity
left at its default "pos"). -/
def ResetSync.elaborate (r : ResetSync) : AsyncFFSync :=
  { i := r.arst, o := Sig.rst r.domain, domain := r.domain, stages := r.stages,
    edge := Edge.pos, max_input_delay := r.max_input_delay }

/-- Example FFSynchronizer configuration used for concrete evaluations. -/
def ffEx : FFSync :=
  { i := Sig.sig "i", o := Sig.sig "o", width := 1, o_domain := "sync",
    reset := 0, reset_less := true, stages := 2, max_input_delay := none }

/-- `ffEx` with a max-input-delay constraint requested. -/
def ffExD : FFSync := { ffEx with max_input_delay := some 1 }

/-- Example AsyncFFSynchronizer configuration. -/
def asyncEx : AsyncFFSync :=
  { i := Sig.sig "i", o := Sig.sig "o", domain := "sync",
    stages := 2, edge := Edge.pos, max_input_delay := none }

/-- `asyncEx` with a max-input-delay constraint requested. -/
def asyncExD : AsyncFFSync := { asyncEx with max_input_delay := some 1 }

/-- A platform exposing no override hooks. -/
def pNone : Platform :=
  { has_get_ff_sync := false, has_get_async_ff_sync := false }

/-- A platform exposing both override hooks. -/
def pBoth : Platform :=
  { has_get_ff_sync := true, has_get_async_ff_sync := true }

/-- The structural output of `PulseSynchronizer.elaborate`: the internal
FFSynchronizer submodule plus the toggle, delay and output statements. -/
structure PulseFrag where
  ff_sync : FFSync
  stmts : List Stmt
  deriving DecidableEq, Repr

/-- `PulseSynchronizer.elaborate`: constructs the internal FFSynchronizer
through its validating constructor `FFSynchronizer(itoggle, otoggle,
o_domain=self.o_domain, stages=self.sync_stages)` — whose `__init__`
runs `_check_stages`, so a `sync_stages` below 2 raises `ValueError`
here — then adds the toggle register in the input domain
(`itoggle.eq(itoggle ^ i)`), the resynchronized toggle delayed one
output cycle (`otoggle_prev.eq(otoggle)`), and the combinational output
(`o.eq(otoggle ^ otoggle_prev)`). -/
def PulseSync.elaborate (p : PulseSync) : Except CdcError PulseFrag :=
  match FFSynchronizer (Sig.sig "itoggle") (Sig.sig "otoggle") 1 p.o_domain
      0 true (StagesArg.int (p.sync_stages : Int)) none with
  | .error e => .error e
  | .ok ff =>
    .ok { ff_sync := ff
        , stmts :=
            [ Stmt.driven p.i_domain (Sig.sig "itoggle")
                (Sig.xorSig (Sig.sig "itoggle") (Sig.sig "i"))
            , Stmt.driven p.o_domain (Sig.sig "otoggle_prev")
                (Sig.sig "otoggle")
            , Stmt.comb (Sig.sig "o")
                (Sig.xorSig (Sig.sig "otoggle") (Sig.sig "otoggle_prev")) ] }

/-- The fragment a successful `PulseSynchronizer.elaborate` produces:
the internal FFSynchronizer resynchronizes `itoggle` into `otoggle` in
the output domain with `sync_stages` stages, the other parameters at
their defaults. -/
def pulseFrag (p : PulseSync) : PulseFrag :=
  { ff_sync :=
      { i := Sig.sig "itoggle", o := Sig.sig "otoggle", width := 1,
        o_domain := p.o_domain, reset := 0, reset_less := true,
        stages := p.sync_stages, max_input_delay := none }
  , stmts :=
      [ Stmt.driven p.i_domain (Sig.sig "itoggle")
          (Sig.xorSig (Sig.sig "itoggle") (Sig.sig "i"))
      , Stmt.driven p.o_domain (Sig.sig "otoggle_prev") (Sig.sig "otoggle")
      , Stmt.comb (Sig.sig "o")
          (Sig.xorSig (Sig.sig "otoggle") (Sig.sig "otoggle_prev")) ] }

/-- One destination-clock edge of the FFSynchronizer register chain:
stage 0 samples the input, stage j samples stage j-1; when the domain
reset is asserted and the chain is not reset-exempt, every stage takes
the configured reset value instead. -/
def ffNext (s : FFSync) (rst : Bool) (u : Nat) (c : Nat → Nat) : Nat → Nat :=
  fun j =>
    if rst && !s.reset_less then s.reset
    else if j = 0 then u else c (j - 1)

/-- Running the chain for `t` destination-clock edges with reset
deasserted, sampling the input sequence `u` from the state `c0`. -/
def ffRun (s : FFSync) (u : Nat → Nat) (c0 : Nat → Nat) : Nat → (Nat → Nat)
  | 0 => c0
  | t + 1 => ffNext s false (u t) (ffRun s u c0 t)

/-- The combinational output of the chain: the final stage. -/
def ffOut (s : FFSync) (c : Nat → Nat) : Nat := c (s.stages - 1)

/-- Runtime state of the AsyncFFSynchronizer structure: the asynchronous
input value and the chain registers (indices below `stages` are the
meaningful ones). -/
structure AsyncState where
  i : Bool
  chain : Nat → Bool

/-- Whether the private domain's asynchronous reset is asserted for a
given input value: the input itself for "pos" polarity, its negation
for "neg". -/
def resetCond (e : Edge) (b : Bool) : Bool :=
  match e with
  | .pos => b
  | .neg => !b

/-- Events observed by the AsyncFFSynchronizer structure: an
asynchronous change of the input, or a destination-clock edge. -/
inductive AEv
  | setI (b : Bool)
  | edge
  deriving DecidableEq, Repr

/-- One event step. While the asynchronous reset is asserted every chain
register holds its reset value 1 (asynchronously, in the same event); a
clock edge with reset deasserted shifts a 0 into the chain. -/
def aStep (e : Edge) (st : AsyncState) : AEv → AsyncState
  | .setI b =>
    { i := b, chain := if resetCond e b then fun _ => true else st.chain }
  | .edge =>
    { i := st.i
    , chain :=
        if resetCond e st.i then fun _ => true
        else fun j => if j = 0 then false else st.chain (j - 1) }

/-- Running the async structure over a trace of events. -/
def aRun (e : Edge) (st : AsyncState) : List AEv → AsyncState
  | [] => st
  | ev :: evs => aRun e (aStep e st ev) evs

/-- The output: combinationally the final chain stage. -/
def aOut (stages : Nat) (st : AsyncState) : Bool := st.chain (stages - 1)

/-- The fully-asserted state: the asynchronous reset has forced every
stage to 1, and the input now holds value `b`. -/
def aAsserted (b : Bool) : AsyncState := { i := b, chain := fun _ => true }

/-- The state `k` destination-clock edges after deassertion: the leading
`k` stages have shifted in 0, the remaining stages still hold 1. -/
def aAfter (b : Bool) (k : Nat) : AsyncState :=
  { i := b, chain := fun j => !(decide (j < k)) }

/-- Runtime state of the PulseSynchronizer structure: the source-domain
toggle, the resynchronization chain in the output domain, and the
one-cycle-delayed copy of the resynchronized toggle. -/
structure PState where
  itoggle : Bool
  chain : Nat → Bool
  otoggle_prev : Bool

/-- Events observed by the PulseSynchronizer structure: a source-domain
clock edge sampling the input pulse value, or a destination-domain clock
edge. -/
inductive PEv
  | src (inp : Bool)
  | dst
  deriving DecidableEq, Repr

/-- One event step with `stages` synchronization stages: a source edge
XORs the sampled input into `itoggle`; a destination edge shifts
`itoggle` into the resynchronization chain and registers the old final
stage (the old `otoggle`) into `otoggle_prev`. -/
def pStep (stages : Nat) (st : PState) : PEv → PState
  | .src b => { st with itoggle := Bool.xor st.itoggle b }
  | .dst =>
    { itoggle := st.itoggle
    , chain := fun j => if j = 0 then st.itoggle else st.chain (j - 1)
    , otoggle_prev := st.chain (stages - 1) }

/-- Running the pulse structure over a trace of events. -/
def pRun (stages : Nat) (st : PState) : List PEv → PState
  | [] => st
  | ev :: evs => pRun stages (pStep stages st ev) evs

/-- `otoggle`, the resynchronized toggle: combinationally the final
chain stage of the internal FFSynchronizer. -/
def pOtoggle (stages : Nat) (st : PState) : Bool := st.chain (stages - 1)

/-- The output `o = otoggle ^ otoggle_prev`. -/
def pOut (stages : Nat) (st : PState) : Bool :=
  Bool.xor (pOtoggle stages st) st.otoggle_prev

/-- A settled state: the toggle value `b` has fully propagated through
the chain and the delayed copy. -/
def pSettled (b : Bool) : PState :=
  { itoggle := b, chain := fun _ => b, otoggle_prev := b }

/-- The state reached `d` destination edges after an isolated toggle
flip away from the settled value `b`. -/
def pAfter (stages : Nat) (b : Bool) (d : Nat) : PState :=
  { itoggle := !b
  , chain := fun j => if j < d then !b else b
  , otoggle_prev := if d ≤ stages then b else !b }

/-- Quiet traces: only destination edges and source edges sampling a
deasserted input. -/
def pQuiet : List PEv → Bool
  | [] => true
  | PEv.src b :: evs => !b && pQuiet evs
  | PEv.dst :: evs => pQuiet evs

/-- Number of destination-clock edges in a trace. -/
def dstCount : List PEv → Nat
  | [] => 0
  | PEv.dst :: evs => dstCount evs + 1
  | PEv.src _ :: evs => dstCount evs

/-- Example PulseSynchronizer configuration. -/
def pulseEx : PulseSync :=
  { i_domain := "isync", o_domain := "osync", sync_stages := 2 }

/-- Example ResetSynchronizer configuration. -/
def resetEx : ResetSync :=
  { arst := Sig.sig "arst", domain := "sync", stages := 2,
    max_input_delay := none }

/-- Example resettable FFSynchronizer configuration. -/
def ffExR : FFSync := { ffEx with reset := 1, reset_less := false }

/-- The k-th chain statement drives stage k from stage k-1 (from the
chain source for stage 0). -/
theorem chainStmts_eq (d : String) (x : Sig) (N : Nat) :
    chainStmts d x N = (List.range N).map (fun k =>
      Stmt.driven d (Sig.stage k) (if k = 0 then x else Sig.stage (k - 1))) := by
  apply List.ext_getElem
  · simp [chainStmts]
  · intro k h1 h2
    have hk : k < N := by simpa [chainStmts] using h1
    simp only [chainStmts, List.getElem_map, List.getElem_zip, List.getElem_range]
    cases k with
    | zero => simp
    | succ m => simp

end Cdc

namespace Cdc

/-- Claim C3 (counterexample): constructing a PulseSynchronizer with the
integer stage count 1 succeeds, instead of failing with the UnsafeValue
(`ValueError`) condition the claim requires for every generator. -/
theorem pulse_stages_one_succeeds :
    (PulseSynchronizer "src" "dst" (StagesArg.int 1)).isOk = true ∧
    PulseSynchronizer "src" "dst" (StagesArg.int 1) ≠
      Except.error CdcError.valueError := by
  constructor
  · rfl
  · intro h
    simp [PulseSynchronizer] at h

/-- Claim C3 (amended): FFSynchronizer, AsyncFFSynchronizer and
ResetSynchronizer reject a non-integer or non-positive stage count with
`TypeError`, reject an integer stage count below 2 with `ValueError`,
and accept any integer stage count of at least 2; PulseSynchronizer
rejects a non-integer or non-positive stage count with `TypeError` but
accepts every positive integer stage count, including 1. -/
theorem stage_count_validation (i o : Sig) (w rv : Nat) (dn di : String)
    (rl : Bool) (d : Option Rat) (n : Int) :
    (FFSynchronizer i o w dn rv rl StagesArg.nonInt d =
      Except.error CdcError.typeError) ∧
    (AsyncFFSynchronizer i o dn StagesArg.nonInt "pos" d =
      Except.error CdcError.typeError) ∧
    (ResetSynchronizer i dn StagesArg.nonInt d =
      Except.error CdcError.typeError) ∧
    (PulseSynchronizer di dn StagesArg.nonInt =
      Except.error CdcError.typeError) ∧
    (n < 1 →
      FFSynchronizer i o w dn rv rl (StagesArg.int n) d =
        Except.error CdcError.typeError ∧
      AsyncFFSynchronizer i o dn (StagesArg.int n) "pos" d =
        Except.error CdcError.typeError ∧
      ResetSynchronizer i dn (StagesArg.int n) d =
        Except.error CdcError.typeError ∧
      PulseSynchronizer di dn (StagesArg.int n) =
        Except.error CdcError.typeError) ∧
    (n = 1 →
      FFSynchronizer i o w dn rv rl (StagesArg.int n) d =
        Except.error CdcError.valueError ∧
      AsyncFFSynchronizer i o dn (StagesArg.int n) "pos" d =
        Except.error CdcError.valueError ∧
      ResetSynchronizer i dn (StagesArg.int n) d =
        Except.error CdcError.valueError ∧
      (PulseSynchronizer di dn (StagesArg.int n)).isOk = true) ∧
    (2 ≤ n →
      (FFSynchronizer i o w dn rv rl (StagesArg.int n) d).isOk = true ∧
      (AsyncFFSynchronizer i o dn (StagesArg.int n) "pos" d).isOk = true ∧
      (ResetSynchronizer i dn (StagesArg.int n) d).isOk = true ∧
      (PulseSynchronizer di dn (StagesArg.int n)).isOk = true) := by
  refine ⟨rfl, rfl, rfl, rfl, ?_, ?_, ?_⟩
  · intro h
    have h1 : (n < 1) = True := by simp [h]
    simp [FFSynchronizer, AsyncFFSynchronizer, ResetSynchronizer,
      PulseSynchronizer, check_stages, h1]
  · intro h
    subst h
    refine ⟨rfl, rfl, rfl, rfl⟩
  · intro h
    have h1 : (n < 1) = False := by simp; omega
    have h2 : (n < 2) = False := by simp; omega
    simp [FFSynchronizer, AsyncFFSynchronizer, ResetSynchronizer,
      PulseSynchronizer, check_stages, h1, h2, Except.isOk, Except.toBool]

/-- Claim C3 witness: concrete evaluations at stage counts of each class. -/
theorem stage_count_validation_witness :
    ((-1 : Int) < 1 ∧
      FFSynchronizer (Sig.sig "i") (Sig.sig "o") 1 "sync" 0 true
        (StagesArg.int (-1)) none = Except.error CdcError.typeError) ∧
    ((1 : Int) = 1 ∧
      FFSynchronizer (Sig.sig "i") (Sig.sig "o") 1 "sync" 0 true
        (StagesArg.int 1) none = Except.error CdcError.valueError) ∧
    (2 ≤ (2 : Int) ∧
      (FFSynchronizer (Sig.sig "i") (Sig.sig "o") 1 "sync" 0 true
        (StagesArg.int 2) none).isOk = true) := by
  refine ⟨⟨by decide, ?_⟩, ⟨rfl, ?_⟩, ⟨by decide, ?_⟩⟩
  · exact ((stage_count_validation (Sig.sig "i") (Sig.sig "o") 1 0 "sync" "sync"
      true none (-1)).2.2.2.2.1 (by decide)).1
  · exact ((stage_count_validation (Sig.sig "i") (Sig.sig "o") 1 0 "sync" "sync"
      true none 1).2.2.2.2.2.1 rfl).1
  · exact ((stage_count_validation (Sig.sig "i") (Sig.sig "o") 1 0 "sync" "sync"
      true none 2).2.2.2.2.2.2 (by decide)).1

end Cdc

namespace Cdc

/-- After `t` reset-free edges, stage `j` holds the input sampled `j+1`
edges ago. -/
theorem ffRun_val (s : FFSync) (u c0 : Nat → Nat) :
    ∀ t j, j < t → ffRun s u c0 t j = u (t - 1 - j) := by
  intro t
  induction t with
  | zero => intro j h; exact absurd h (Nat.not_lt_zero j)
  | succ t ih =>
    intro j h
    cases j with
    | zero => simp [ffRun, ffNext]
    | succ m =>
      have hm : m < t := by omega
      have heq : t + 1 - 1 - (m + 1) = t - 1 - m := by omega
      rw [heq, ← ih m hm]
      simp [ffRun, ffNext]

/-- The fully-asserted async state is the zero-edge deassertion state. -/
theorem aAsserted_eq (b : Bool) : aAsserted b = aAfter b 0 := by
  simp only [aAsserted, aAfter, AsyncState.mk.injEq, true_and]
  funext j
  simp

/-- A deassertion-phase clock edge shifts one more 0 into the chain. -/
theorem aStep_edge_after (e : Edge) (b : Bool) (k : Nat)
    (h : resetCond e b = false) :
    aStep e (aAfter b k) AEv.edge = aAfter b (k + 1) := by
  simp only [aStep, aAfter, h, AsyncState.mk.injEq, true_and,
    Bool.false_eq_true, if_false]
  funext j
  cases j with
  | zero => simp
  | succ m => simp [Nat.succ_lt_succ_iff]

/-- Running `n` deassertion-phase edges from the `k`-edge state reaches
the `k+n`-edge state. -/
theorem aRun_edges (e : Edge) (b : Bool) (h : resetCond e b = false) :
    ∀ n k, aRun e (aAfter b k) (List.replicate n AEv.edge) =
      aAfter b (k + n) := by
  intro n
  induction n with
  | zero => intro k; simp [aRun]
  | succ n ih =>
    intro k
    rw [List.replicate_succ]
    rw [show aRun e (aAfter b k) (AEv.edge :: List.replicate n AEv.edge) =
      aRun e (aStep e (aAfter b k) AEv.edge) (List.replicate n AEv.edge)
      from rfl]
    rw [aStep_edge_after e b k h, ih (k + 1)]
    congr 1
    omega

/-- A source edge with the pulse input deasserted leaves the pulse state
unchanged. -/
theorem pStep_src_false (N : Nat) (st : PState) :
    pStep N st (PEv.src false) = st := by
  simp [pStep]

/-- The isolated pulse flips the toggle away from the settled value. -/
theorem pStep_pulse (N : Nat) (b : Bool) :
    pStep N (pSettled b) (PEv.src true) = pAfter N b 0 := by
  simp only [pStep, pSettled, pAfter, PState.mk.injEq]
  refine ⟨by simp, ?_, by simp⟩
  funext j
  simp

/-- A destination edge after the flip advances the propagation state. -/
theorem pStep_dst_pAfter (N : Nat) (b : Bool) (d : Nat) (h : 1 ≤ N) :
    pStep N (pAfter N b d) PEv.dst = pAfter N b (d + 1) := by
  simp only [pStep, pAfter, PState.mk.injEq, true_and]
  refine ⟨?_, ?_⟩
  · funext j
    cases j with
    | zero => simp
    | succ m => simp [Nat.succ_lt_succ_iff]
  · by_cases hd : d + 1 ≤ N
    · have h1 : ¬ (N - 1 < d) := by omega
      simp [h1, hd]
    · have h1 : N - 1 < d := by omega
      simp [h1, hd]

/-- A quiet trace only advances the propagation state by its number of
destination edges. -/
theorem pRun_quiet (N : Nat) (b : Bool) (h : 1 ≤ N) :
    ∀ evs, pQuiet evs = true → ∀ d,
      pRun N (pAfter N b d) evs = pAfter N b (d + dstCount evs) := by
  intro evs
  induction evs with
  | nil => intro _ d; simp [pRun, dstCount]
  | cons ev evs ih =>
    intro hq d
    cases ev with
    | src inp =>
      have hinp : inp = false := by
        cases inp
        · rfl
        · simp [pQuiet] at hq
      have hq2 : pQuiet evs = true := by
        subst hinp
        simpa [pQuiet] using hq
      subst hinp
      rw [show pRun N (pAfter N b d) (PEv.src false :: evs) =
        pRun N (pStep N (pAfter N b d) (PEv.src false)) evs from rfl]
      rw [pStep_src_false, ih hq2 d]
      simp [dstCount]
    | dst =>
      have hq2 : pQuiet evs = true := by simpa [pQuiet] using hq
      rw [show pRun N (pAfter N b d) (PEv.dst :: evs) =
        pRun N (pStep N (pAfter N b d) PEv.dst) evs from rfl]
      rw [pStep_dst_pAfter N b d h, ih hq2 (d + 1)]
      congr 1
      simp only [dstCount]
      omega

/-- The output of the propagation state is asserted exactly when the
toggle flip has just reached the final stage. -/
theorem pOut_pAfter (N : Nat) (b : Bool) (d : Nat) (h : 1 ≤ N) :
    pOut N (pAfter N b d) = decide (d = N) := by
  simp only [pOut, pOtoggle, pAfter]
  rcases Nat.lt_trichotomy d N with hd | hd | hd
  · have h1 : ¬ (N - 1 < d) := by omega
    have h2 : d ≤ N := by omega
    have h3 : d ≠ N := by omega
    simp [h1, h2, h3]
  · subst hd
    have h1 : d - 1 < d := by omega
    simp [h1]
  · have h1 : N - 1 < d := by omega
    have h2 : ¬ (d ≤ N) := by omega
    have h3 : d ≠ N := by omega
    simp [h1, h2, h3]

end Cdc

namespace Cdc

/-- Claim C1: AsyncFFSynchronizer's default elaboration constructs a
private local clock domain "async_ff" with asynchronous reset, ties its
clock combinationally to the destination domain's clock, drives its
reset combinationally from the source signal i (from ~i for "neg" edge
polarity), builds a chain of `stages` registers all initialized to 1
with the leading stage fed the constant 0 and each later stage fed the
previous stage, and makes the output o combinationally equal to the
final stage. -/
theorem asyncFF_default_structure (s : AsyncFFSync) (pl : Platform)
    (hp : pl.has_get_async_ff_sync = false) (hd : s.max_input_delay = none)
    (hs : 1 ≤ s.stages) :
    s.elaborate pl = Except.ok (ElabOut.frag (asyncFragment s)) ∧
    (asyncFragment s).domains =
      [{ name := "async_ff", async_reset := true, is_local := true }] ∧
    Stmt.comb (Sig.clk "async_ff") (Sig.clk s.domain) ∈
      (asyncFragment s).stmts ∧
    (s.edge = Edge.pos →
      Stmt.comb (Sig.rst "async_ff") s.i ∈ (asyncFragment s).stmts) ∧
    (s.edge = Edge.neg →
      Stmt.comb (Sig.rst "async_ff") (Sig.inv s.i) ∈ (asyncFragment s).stmts) ∧
    (asyncFragment s).flops.length = s.stages ∧
    (∀ f ∈ (asyncFragment s).flops, f.reset = 1 ∧ f.width = 1) ∧
    Stmt.driven "async_ff" (Sig.stage 0) (Sig.const 0) ∈
      (asyncFragment s).stmts ∧
    (∀ k, 1 ≤ k → k < s.stages →
      Stmt.driven "async_ff" (Sig.stage k) (Sig.stage (k - 1)) ∈
        (asyncFragment s).stmts) ∧
    Stmt.comb s.o (Sig.stage (s.stages - 1)) ∈ (asyncFragment s).stmts := by
  refine ⟨?_, rfl, ?_, ?_, ?_, ?_, ?_, ?_, ?_, ?_⟩
  · simp [AsyncFFSync.elaborate, hp, hd]
  · simp [asyncFragment]
  · intro he
    simp [asyncFragment, asyncResetExpr, he]
  · intro he
    simp [asyncFragment, asyncResetExpr, he]
  · simp [asyncFragment, ffFlops]
  · intro f hf
    simp only [asyncFragment, ffFlops, List.mem_map] at hf
    obtain ⟨k, _, rfl⟩ := hf
    exact ⟨rfl, rfl⟩
  · have hmem : Stmt.driven "async_ff" (Sig.stage 0) (Sig.const 0) ∈
        chainStmts "async_ff" (Sig.const 0) s.stages := by
      rw [chainStmts_eq]
      exact List.mem_map.mpr ⟨0, List.mem_range.mpr hs, by simp⟩
    simp [asyncFragment, hmem]
  · intro k h1 h2
    have hk : k ≠ 0 := by omega
    have hmem : Stmt.driven "async_ff" (Sig.stage k) (Sig.stage (k - 1)) ∈
        chainStmts "async_ff" (Sig.const 0) s.stages := by
      rw [chainStmts_eq]
      exact List.mem_map.mpr ⟨k, List.mem_range.mpr h2, by simp [hk]⟩
    simp [asyncFragment, hmem]
  · simp [asyncFragment]

/-- Claim C2: FFSynchronizer's default elaboration produces exactly
`stages` cascaded registers, all clocked in the destination domain, with
stage 0 fed from the source signal i and each later stage fed from the
previous stage, and the output o combinationally equal to the final
stage; consequently after `t ≥ stages` destination-clock edges the
output equals the input sampled exactly `stages` edges earlier, so an
input held constant for the last `stages` edges appears at the output. -/
theorem ffSync_structure_and_delay (s : FFSync) (pl : Platform)
    (u c0 : Nat → Nat) (t v : Nat)
    (hp : pl.has_get_ff_sync = false) (hd : s.max_input_delay = none)
    (hs : 1 ≤ s.stages) (ht : s.stages ≤ t) :
    s.elaborate pl = Except.ok (ElabOut.frag (ffFragment s)) ∧
    (ffFragment s).flops.length = s.stages ∧
    (ffFragment s).domains = [] ∧
    Stmt.driven s.o_domain (Sig.stage 0) s.i ∈ (ffFragment s).stmts ∧
    (∀ k, 1 ≤ k → k < s.stages →
      Stmt.driven s.o_domain (Sig.stage k) (Sig.stage (k - 1)) ∈
        (ffFragment s).stmts) ∧
    Stmt.comb s.o (Sig.stage (s.stages - 1)) ∈ (ffFragment s).stmts ∧
    (∀ d l r, Stmt.driven d l r ∈ (ffFragment s).stmts → d = s.o_domain) ∧
    ffOut s (ffRun s u c0 t) = u (t - s.stages) ∧
    ((∀ k, t - s.stages ≤ k → k < t → u k = v) →
      ffOut s (ffRun s u c0 t) = v) := by
  have hout : ffOut s (ffRun s u c0 t) = u (t - s.stages) := by
    have hlt : s.stages - 1 < t := by omega
    rw [ffOut, ffRun_val s u c0 t (s.stages - 1) hlt]
    congr 1
    omega
  refine ⟨?_, ?_, rfl, ?_, ?_, ?_, ?_, hout, ?_⟩
  · simp [FFSync.elaborate, hp, hd]
  · simp [ffFragment, ffFlops]
  · have hmem : Stmt.driven s.o_domain (Sig.stage 0) s.i ∈
        chainStmts s.o_domain s.i s.stages := by
      rw [chainStmts_eq]
      exact List.mem_map.mpr ⟨0, List.mem_range.mpr hs, by simp⟩
    simp [ffFragment, hmem]
  · intro k h1 h2
    have hk : k ≠ 0 := by omega
    have hmem : Stmt.driven s.o_domain (Sig.stage k) (Sig.stage (k - 1)) ∈
        chainStmts s.o_domain s.i s.stages := by
      rw [chainStmts_eq]
      exact List.mem_map.mpr ⟨k, List.mem_range.mpr h2, by simp [hk]⟩
    simp [ffFragment, hmem]
  · simp [ffFragment]
  · intro d l r hmem
    simp only [ffFragment, List.mem_append] at hmem
    rcases hmem with hmem | hmem
    · rw [chainStmts_eq] at hmem
      rcases List.mem_map.mp hmem with ⟨k, _, hk⟩
      injection hk with hdom _ _
      exact hdom.symm
    · simp at hmem
  · intro hcv
    rw [hout]
    exact hcv (t - s.stages) le_rfl (by omega)

end Cdc

namespace Cdc

/-- A PulseSynchronizer constructed with `sync_stages = 1` (construction
accepts it) fails at elaboration with `ValueError`, raised by the
internal FFSynchronizer's `_check_stages`. -/
theorem pulse_elaborate_one_raises (p : PulseSync) (h : p.sync_stages = 1) :
    p.elaborate = Except.error CdcError.valueError := by
  simp [PulseSync.elaborate, FFSynchronizer, check_stages, h]

/-- Claim C4: PulseSynchronizer keeps a source-domain toggle that XORs
the input into itself on every source edge, resynchronizes it through an
internal FFSynchronizer (built via the validating constructor) with
`sync_stages` stages into the output domain, and drives the output
combinationally as the XOR of the resynchronized toggle and its
one-cycle-delayed copy; from a settled state, an isolated single-cycle
input pulse makes the output asserted in exactly one destination cycle
(the one reached after exactly `sync_stages` destination edges). Stated
for `sync_stages ≥ 2`, the stage counts at which elaboration succeeds. -/
theorem pulseSync_toggle_and_single_pulse (p : PulseSync) (st : PState)
    (b inp : Bool) (evs : List PEv)
    (hs : 2 ≤ p.sync_stages) (hq : pQuiet evs = true) :
    ((pStep p.sync_stages st (PEv.src inp)).itoggle =
      Bool.xor st.itoggle inp) ∧
    (pOut p.sync_stages st =
      Bool.xor (pOtoggle p.sync_stages st) st.otoggle_prev) ∧
    p.elaborate = Except.ok (pulseFrag p) ∧
    ((pulseFrag p).ff_sync.stages = p.sync_stages ∧
      (pulseFrag p).ff_sync.o_domain = p.o_domain ∧
      (pulseFrag p).ff_sync.i = Sig.sig "itoggle" ∧
      (pulseFrag p).ff_sync.o = Sig.sig "otoggle") ∧
    (Stmt.driven p.i_domain (Sig.sig "itoggle")
        (Sig.xorSig (Sig.sig "itoggle") (Sig.sig "i")) ∈
      (pulseFrag p).stmts) ∧
    (Stmt.comb (Sig.sig "o")
        (Sig.xorSig (Sig.sig "otoggle") (Sig.sig "otoggle_prev")) ∈
      (pulseFrag p).stmts) ∧
    (pOut p.sync_stages
        (pRun p.sync_stages
          (pStep p.sync_stages (pSettled b) (PEv.src true)) evs) =
      decide (dstCount evs = p.sync_stages)) := by
  have hs1 : 1 ≤ p.sync_stages := by omega
  refine ⟨rfl, rfl, ?_, ⟨rfl, rfl, rfl, rfl⟩, ?_, ?_, ?_⟩
  · have h1 : ¬ ((p.sync_stages : Int) < 1) := by omega
    have h2 : ¬ ((p.sync_stages : Int) < 2) := by omega
    simp [PulseSync.elaborate, FFSynchronizer, check_stages, h1, h2,
      pulseFrag, Int.toNat_natCast]
  · simp [pulseFrag]
  · simp [pulseFrag]
  · rw [pStep_pulse, pRun_quiet p.sync_stages b hs1 evs hq 0,
      pOut_pAfter p.sync_stages b (0 + dstCount evs) hs1]
    simp

/-- Claim C5: in the AsyncFFSynchronizer structure, an input change that
asserts the (possibly inverted) reset condition forces the output to 1
in the same event, independent of destination-clock edges; from the
asserted state, with the reset condition deasserted, the output stays 1
for the first `stages - 1` destination edges and reaches 0 exactly at
the `stages`-th edge (output after k edges is `k < stages`); "neg"
polarity triggers on the inverted input. -/
theorem asyncFF_assert_deassert (e : Edge) (st : AsyncState) (b bLow : Bool)
    (stages k : Nat) (hs : 1 ≤ stages) (hb : resetCond e b = true)
    (hl : resetCond e bLow = false) :
    aOut stages (aStep e st (AEv.setI b)) = true ∧
    (aOut stages (aRun e (aAsserted bLow) (List.replicate k AEv.edge)) =
      decide (k < stages)) ∧
    resetCond Edge.pos b = b ∧
    resetCond Edge.neg b = !b := by
  refine ⟨?_, ?_, rfl, rfl⟩
  · simp [aStep, aOut, hb]
  · rw [aAsserted_eq, aRun_edges e bLow hl k 0]
    simp only [aOut, aAfter, Nat.zero_add]
    by_cases hk : k < stages
    · have h1 : ¬ (stages - 1 < k) := by omega
      simp [h1, hk]
    · have h1 : stages - 1 < k := by omega
      simp [h1, hk]

/-- Claim C6: when a max-input-delay constraint was requested and the
platform exposes no override hook, elaboration of FFSynchronizer and of
AsyncFFSynchronizer fails with `NotImplementedError` (the spec's
UnsupportedConstraint) instead of ignoring the constraint. -/
theorem unsupported_delay_raises (s : FFSync) (a : AsyncFFSync)
    (pl : Platform)
    (h1 : pl.has_get_ff_sync = false) (h2 : pl.has_get_async_ff_sync = false)
    (h3 : s.max_input_delay.isSome = true)
    (h4 : a.max_input_delay.isSome = true) :
    s.elaborate pl = Except.error CdcError.notImplementedError ∧
    a.elaborate pl = Except.error CdcError.notImplementedError := by
  constructor
  · simp [FFSync.elaborate, h1, h3]
  · simp [AsyncFFSync.elaborate, h2, h4]

/-- Claim C7: ResetSynchronizer's elaboration is exactly a delegation to
an AsyncFFSynchronizer whose input is `arst`, whose output is the named
domain's own reset signal, with the same domain name, stage count and
max-input-delay constraint (default "pos" polarity); the delegated
fragment combinationally drives the domain's reset from the final chain
stage, and asserting the input forces that output to 1 in the same
event. -/
theorem resetSync_delegates (r : ResetSync) (st : AsyncState) (b : Bool)
    (hb : b = true) :
    (r.elaborate).i = r.arst ∧
    (r.elaborate).o = Sig.rst r.domain ∧
    (r.elaborate).domain = r.domain ∧
    (r.elaborate).stages = r.stages ∧
    (r.elaborate).max_input_delay = r.max_input_delay ∧
    (r.elaborate).edge = Edge.pos ∧
    Stmt.comb (Sig.rst r.domain) (Sig.stage (r.stages - 1)) ∈
      (asyncFragment r.elaborate).stmts ∧
    aOut r.stages (aStep Edge.pos st (AEv.setI b)) = true := by
  refine ⟨rfl, rfl, rfl, rfl, rfl, rfl, ?_, ?_⟩
  · simp [asyncFragment, ResetSync.elaborate]
  · subst hb
    simp [aStep, aOut, resetCond]

/-- Claim C8: every register stage of FFSynchronizer's default
elaboration has the input's width, the configured reset value and the
configured reset-exemption flag; on a destination-domain reset edge a
non-exempt chain takes the configured reset value in every stage, while
a reset-exempt chain behaves exactly as with reset deasserted. -/
theorem ffSync_stage_reset_attrs (s : FFSync) (u : Nat) (c : Nat → Nat)
    (j : Nat) (hj : j < s.stages) :
    (∀ f ∈ (ffFragment s).flops,
      f.width = s.width ∧ f.reset = s.reset ∧ f.reset_less = s.reset_less) ∧
    (s.reset_less = false → ffNext s true u c j = s.reset) ∧
    (s.reset_less = true → ffNext s true u c = ffNext s false u c) := by
  refine ⟨?_, ?_, ?_⟩
  · intro f hf
    simp only [ffFragment, ffFlops, List.mem_map] at hf
    obtain ⟨k, _, rfl⟩ := hf
    exact ⟨rfl, rfl, rfl⟩
  · intro hrl
    simp [ffNext, hrl]
  · intro hrl
    funext m
    simp [ffNext, hrl]

/-- Claim C9: when the platform exposes the override hook, elaboration
of FFSynchronizer (`get_ff_sync`) and of AsyncFFSynchronizer
(`get_async_ff_sync`) returns the hook's result applied to the generator
itself, delegating every parameter, and never the default fragment. -/
theorem override_hook_delegation (s : FFSync) (a : AsyncFFSync)
    (pl : Platform)
    (h1 : pl.has_get_ff_sync = true) (h2 : pl.has_get_async_ff_sync = true) :
    s.elaborate pl = Except.ok (ElabOut.overriddenFF s) ∧
    a.elaborate pl = Except.ok (ElabOut.overriddenAsync a) ∧
    (∀ f, s.elaborate pl ≠ Except.ok (ElabOut.frag f)) ∧
    (∀ f, a.elaborate pl ≠ Except.ok (ElabOut.frag f)) := by
  refine ⟨?_, ?_, ?_, ?_⟩
  · simp [FFSync.elaborate, h1]
  · simp [AsyncFFSync.elaborate, h2]
  · intro f hc
    simp [FFSync.elaborate, h1] at hc
  · intro f hc
    simp [AsyncFFSync.elaborate, h2] at hc

/-- Claim C10: the override-hook check precedes the max-input-delay
support check: with the hook present elaboration never fails with
`NotImplementedError` even when a delay constraint was requested, and
that failure is reachable only with the hook absent and a delay
constraint requested. -/
theorem hook_precedes_delay_check (s : FFSync) (a : AsyncFFSync)
    (pl : Platform) :
    (pl.has_get_ff_sync = true →
      s.elaborate pl ≠ Except.error CdcError.notImplementedError) ∧
    (pl.has_get_async_ff_sync = true →
      a.elaborate pl ≠ Except.error CdcError.notImplementedError) ∧
    (s.elaborate pl = Except.error CdcError.notImplementedError →
      pl.has_get_ff_sync = false ∧ s.max_input_delay.isSome = true) ∧
    (a.elaborate pl = Except.error CdcError.notImplementedError →
      pl.has_get_async_ff_sync = false ∧ a.max_input_delay.isSome = true) := by
  refine ⟨?_, ?_, ?_, ?_⟩
  · intro h hc
    simp [FFSync.elaborate, h] at hc
  · intro h hc
    simp [AsyncFFSync.elaborate, h] at hc
  · intro hc
    by_cases h : pl.has_get_ff_sync = true
    · simp [FFSync.elaborate, h] at hc
    · have h0 : pl.has_get_ff_sync = false := by simpa using h
      refine ⟨h0, ?_⟩
      by_cases hdel : s.max_input_delay.isSome = true
      · exact hdel
      · simp [FFSync.elaborate, h0, hdel] at hc
  · intro hc
    by_cases h : pl.has_get_async_ff_sync = true
    · simp [AsyncFFSync.elaborate, h] at hc
    · have h0 : pl.has_get_async_ff_sync = false := by simpa using h
      refine ⟨h0, ?_⟩
      by_cases hdel : a.max_input_delay.isSome = true
      · exact hdel
      · simp [AsyncFFSync.elaborate, h0, hdel] at hc

end Cdc

namespace Cdc

/-- Claim C1 witness: concrete evaluation of the default async
elaboration at 2 stages on a hook-less platform. -/
theorem asyncFF_default_structure_witness :
    pNone.has_get_async_ff_sync = false ∧ asyncEx.max_input_delay = none ∧
    1 ≤ asyncEx.stages ∧
    asyncEx.elaborate pNone =
      Except.ok (ElabOut.frag (asyncFragment asyncEx)) :=
  ⟨rfl, rfl, by decide,
    (asyncFF_default_structure asyncEx pNone rfl rfl (by decide)).1⟩

/-- Claim C2 witness: with 2 stages and the input sequence k+5, the
output after 3 edges is the input sampled 2 edges earlier, namely 6. -/
theorem ffSync_structure_and_delay_witness :
    pNone.has_get_ff_sync = false ∧ ffEx.max_input_delay = none ∧
    1 ≤ ffEx.stages ∧ ffEx.stages ≤ 3 ∧
    ffOut ffEx (ffRun ffEx (fun k => k + 5) (fun _ => 0) 3) = 6 :=
  ⟨rfl, rfl, by decide, by decide,
    (ffSync_structure_and_delay ffEx pNone (fun k => k + 5) (fun _ => 0) 3 6
      rfl rfl (by decide) (by decide)).2.2.2.2.2.2.2.1⟩

/-- Claim C4 witness: with 2 stages elaboration succeeds and yields the
expected fragment, and a single isolated pulse from the settled state
makes the output asserted after exactly 2 destination edges of a quiet
trace. -/
theorem pulseSync_single_pulse_witness :
    2 ≤ pulseEx.sync_stages ∧
    pQuiet [PEv.dst, PEv.src false, PEv.dst] = true ∧
    pulseEx.elaborate = Except.ok (pulseFrag pulseEx) ∧
    pOut pulseEx.sync_stages
      (pRun pulseEx.sync_stages
        (pStep pulseEx.sync_stages (pSettled false) (PEv.src true))
        [PEv.dst, PEv.src false, PEv.dst]) = true :=
  ⟨by decide, by decide,
    (pulseSync_toggle_and_single_pulse pulseEx (pSettled false) false false
      [PEv.dst, PEv.src false, PEv.dst] (by decide) (by decide)).2.2.1,
    (pulseSync_toggle_and_single_pulse pulseEx (pSettled false) false false
      [PEv.dst, PEv.src false, PEv.dst] (by decide) (by decide)).2.2.2.2.2.2⟩

/-- Claim C5 witness: with 2 stages and "pos" polarity, after 1 low edge
the output is still 1, after 2 low edges it is 0. -/
theorem asyncFF_assert_deassert_witness :
    1 ≤ (2 : Nat) ∧ resetCond Edge.pos true = true ∧
    resetCond Edge.pos false = false ∧
    aOut 2 (aRun Edge.pos (aAsserted false) (List.replicate 1 AEv.edge)) =
      true ∧
    aOut 2 (aRun Edge.pos (aAsserted false) (List.replicate 2 AEv.edge)) =
      false :=
  ⟨by decide, rfl, rfl,
    (asyncFF_assert_deassert Edge.pos (aAsserted false) true false 2 1
      (by decide) rfl rfl).2.1,
    (asyncFF_assert_deassert Edge.pos (aAsserted false) true false 2 2
      (by decide) rfl rfl).2.1⟩

/-- Claim C6 witness: requesting a delay constraint on a hook-less
platform makes FFSynchronizer elaboration fail. -/
theorem unsupported_delay_raises_witness :
    pNone.has_get_ff_sync = false ∧ pNone.has_get_async_ff_sync = false ∧
    ffExD.max_input_delay.isSome = true ∧
    asyncExD.max_input_delay.isSome = true ∧
    ffExD.elaborate pNone = Except.error CdcError.notImplementedError :=
  ⟨rfl, rfl, rfl, rfl,
    (unsupported_delay_raises ffExD asyncExD pNone rfl rfl rfl rfl).1⟩

/-- Claim C7 witness: the example ResetSynchronizer delegates with its
output bound to the "sync" domain's reset signal, and asserting the
input forces the output high in the same event. -/
theorem resetSync_delegates_witness :
    (true = true) ∧
    (resetEx.elaborate).o = Sig.rst "sync" ∧
    aOut resetEx.stages (aStep Edge.pos (aAsserted false) (AEv.setI true)) =
      true :=
  ⟨rfl, (resetSync_delegates resetEx (aAsserted false) true rfl).2.1,
    (resetSync_delegates resetEx (aAsserted false) true rfl).2.2.2.2.2.2.2⟩

/-- Claim C8 witness: the non-exempt example chain takes its configured
reset value 1 in stage 0 on a reset edge. -/
theorem ffSync_stage_reset_attrs_witness :
    0 < ffExR.stages ∧ ffExR.reset_less = false ∧
    ffNext ffExR true 7 (fun _ => 0) 0 = 1 :=
  ⟨by decide, rfl,
    (ffSync_stage_reset_attrs ffExR 7 (fun _ => 0) 0 (by decide)).2.1 rfl⟩

/-- Claim C9 witness: on a platform with both hooks, elaboration of the
example FFSynchronizer returns the hook result applied to it. -/
theorem override_hook_delegation_witness :
    pBoth.has_get_ff_sync = true ∧ pBoth.has_get_async_ff_sync = true ∧
    ffExD.elaborate pBoth = Except.ok (ElabOut.overriddenFF ffExD) :=
  ⟨rfl, rfl, (override_hook_delegation ffExD asyncExD pBoth rfl rfl).1⟩

/-- Claim C10 witness: with the hook present and a delay constraint
requested, elaboration does not fail with the unsupported-constraint
error. -/
theorem hook_precedes_delay_check_witness :
    pBoth.has_get_ff_sync = true ∧
    ffExD.elaborate pBoth ≠ Except.error CdcError.notImplementedError :=
  ⟨rfl, (hook_precedes_delay_check ffExD asyncExD pBoth).1 rfl⟩

end Cdc
